import Mathlib

/-!
Shallow embedding of `src/main.rs` of git-fetch-commits.

The program clones a repository, walks its commits in time order, and for
every non-merge commit classifies the diff against its first parent into
per-file counters, emitting one flat JSON line per (commit, file) pair.

The embedding below translates the three algorithmic parts of the source:
`extract_from_diff` (the diff classifier), the per-commit body of the
`while let Some(Ok(oid)) = revwalk.next()` loop in `extract_logs`
(commit resolution, merge-vs-normal classification, flattening, emission),
and the error handling of `extract_logs` / `main`.

Modelling conventions:
* `u32` counters are modelled as `Nat` (the source counters only ever grow
  by one per callback event; Rust debug builds abort on overflow).
* git object ids (`Oid`) are modelled as `Nat`; trees are identified by
  their oid.
* fallible collaborator calls (`git2`) are modelled by oracle functions in
  a `Repo` structure returning `Except String _` (for `Result`) or
  `Option _` (where the source calls `.unwrap()`, whose `None` case is a
  Rust panic).
* a run outcome is `Outcome`: `ok`, `err` (an `Err` propagated by `?`),
  or `panicked` (a failed `.unwrap()`, which aborts the process).
* a tree-to-tree diff is modelled by the sequence of callback events that
  `Diff::foreach` delivers: file events, then the hunks and lines of that
  file, in nesting order.
-/

/-- `FileChange` of the source: one file's counters within one commit. -/
structure FileChange where
  path : String
  lines_added : Nat
  lines_removed : Nat
  lines_modified : Nat
  hunks_added : Nat
  hunks_removed : Nat
  hunks_modified : Nat
deriving Repr, DecidableEq

/-- `CommitType` of the source. -/
inductive CommitType where
  | Normal
  | Merge
deriving Repr, DecidableEq

/-- `Commit` of the source. -/
structure Commit where
  id : String
  repo_url : String
  timestamp : Int
  author_name : String
  author_email : String
  message : String
  type : CommitType
  changes : List FileChange
deriving Repr, DecidableEq

/-- `FlatCommit` of the source: the commit scalars plus one `FileChange`. -/
structure FlatCommit where
  id : String
  repo_url : String
  timestamp : Int
  author_name : String
  author_email : String
  message : String
  type : CommitType
  path : String
  lines_added : Nat
  lines_removed : Nat
  lines_modified : Nat
  hunks_added : Nat
  hunks_removed : Nat
  hunks_modified : Nat
deriving Repr, DecidableEq

/-- One callback event of `Diff::foreach`, in delivery order:
`file` carries `diff_delta.new_file().path()` (`none` when the delta has
no new-file path), `hunk` carries `(old_lines, new_lines)` of the hunk
header, `line` carries `(old_lineno, new_lineno)` of the line. -/
inductive DiffEvent where
  | file (newPath : Option String)
  | hunk (old_lines new_lines : Nat)
  | line (old_lineno new_lineno : Option Nat)
deriving Repr, DecidableEq

/-- The fresh zero-initialized record opened by the file callback of
`extract_from_diff` (src/main.rs lines 80-88). -/
def newFileChange (filename : String) : FileChange :=
  { path := filename
    lines_added := 0
    lines_removed := 0
    lines_modified := 0
    hunks_added := 0
    hunks_removed := 0
    hunks_modified := 0 }

/-- The hunk callback body of `extract_from_diff` (src/main.rs lines
92-112): match on `(diff_hunk.old_lines(), diff_hunk.new_lines())` with
arms `(0, _)`, `(_, 0)`, `(_, _)` in that order. -/
def hunkUpdate (state : FileChange) (old_lines new_lines : Nat) : FileChange :=
  match old_lines, new_lines with
  | 0, _ => { state with hunks_added := state.hunks_added + 1 }
  | _, 0 => { state with hunks_removed := state.hunks_removed + 1 }
  | _, _ => { state with hunks_modified := state.hunks_modified + 1 }

/-- The line callback body of `extract_from_diff` (src/main.rs lines
113-135): match on `(diff_line.old_lineno(), diff_line.new_lineno())`;
the `(None, None)` catch-all returns the state unchanged. -/
def lineUpdate (state : FileChange) (old_lineno new_lineno : Option Nat) : FileChange :=
  match old_lineno, new_lineno with
  | none, some _ => { state with lines_added := state.lines_added + 1 }
  | some _, none => { state with lines_removed := state.lines_removed + 1 }
  | some _, some _ => { state with lines_modified := state.lines_modified + 1 }
  | none, none => state

/-- One callback invocation of `diff.foreach` inside `extract_from_diff`,
acting on the cell `x` (the open record) and the vector `files`:
* a file event pushes the open record (if any) onto `files` and opens a
  fresh record on the delta's new-file path; a delta with no path hits
  `path().unwrap()`, a panic (`none` result);
* a hunk or line event updates the open record via `x.take().unwrap()`,
  a panic (`none`) when no record is open. -/
def diffStep (st : Option FileChange) (files : List FileChange) :
    DiffEvent → Option (Option FileChange × List FileChange)
  | .file p =>
    match p with
    | none => none
    | some filename =>
      let files' :=
        match st with
        | some file_change => files ++ [file_change]
        | none => files
      some (some (newFileChange filename), files')
  | .hunk o n =>
    match st with
    | none => none
    | some state => some (some (hunkUpdate state o n), files)
  | .line o n =>
    match st with
    | none => none
    | some state => some (some (lineUpdate state o n), files)

/-- The full `diff.foreach` traversal: the events in order, threaded
through `diffStep`; `none` is a panic in one of the callbacks. -/
def runEvents : List DiffEvent → Option FileChange → List FileChange →
    Option (Option FileChange × List FileChange)
  | [], st, files => some (st, files)
  | e :: es, st, files =>
    match diffStep st files e with
    | none => none
    | some (st', files') => runEvents es st' files'

/-- `extract_from_diff` (src/main.rs lines 56-139): runs the foreach
traversal from an empty cell and an empty vector and returns `files`.
Note: the source returns `Ok(files)` directly after `diff.foreach`; the
record still held in the cell `x` at that point is dropped, not pushed. -/
def extract_from_diff (events : List DiffEvent) : Option (List FileChange) :=
  (runEvents events none []).map (fun r => r.2)

/-- C3: on a hunk event for the currently open file, exactly one hunk
counter is incremented by one, chosen by `(old_lines, new_lines)`:
old-count zero gives `hunks_added`, otherwise new-count zero gives
`hunks_removed`, otherwise `hunks_modified`; every other field of the
record, and the finalized output list, are unchanged. -/
theorem hunk_classification (fc : FileChange) (o n : Nat) (files : List FileChange) :
    (o = 0 → hunkUpdate fc o n = { fc with hunks_added := fc.hunks_added + 1 }) ∧
    (o ≠ 0 → n = 0 → hunkUpdate fc o n = { fc with hunks_removed := fc.hunks_removed + 1 }) ∧
    (o ≠ 0 → n ≠ 0 → hunkUpdate fc o n = { fc with hunks_modified := fc.hunks_modified + 1 }) ∧
    diffStep (some fc) files (.hunk o n) = some (some (hunkUpdate fc o n), files) := by
  refine ⟨?_, ?_, ?_, rfl⟩
  · rintro rfl; cases n <;> rfl
  · rintro ho rfl
    cases o with
    | zero => exact absurd rfl ho
    | succ k => rfl
  · intro ho hn
    cases o with
    | zero => exact absurd rfl ho
    | succ k =>
      cases n with
      | zero => exact absurd rfl hn
      | succ m => rfl

/-- C3 witness: the theorem applied at a concrete hunk with old-count 0
and new-count 3 on a fresh record. -/
theorem hunk_classification_witness :
    hunkUpdate (newFileChange "f") 0 3 =
      { newFileChange "f" with hunks_added := 1 } :=
  (hunk_classification (newFileChange "f") 0 3 []).1 rfl

/-- C4: on a line event for the currently open file, the pair
(old line number present?, new line number present?) selects the counter:
absent-old/present-new increments `lines_added`, present-old/absent-new
increments `lines_removed`, present-old/present-new increments
`lines_modified`, and both-absent leaves the record unchanged (a no-op,
not an error); every other field, and the output list, are unchanged. -/
theorem line_classification (fc : FileChange) (o n : Option Nat) (files : List FileChange) :
    (o = none → n ≠ none → lineUpdate fc o n = { fc with lines_added := fc.lines_added + 1 }) ∧
    (o ≠ none → n = none → lineUpdate fc o n = { fc with lines_removed := fc.lines_removed + 1 }) ∧
    (o ≠ none → n ≠ none → lineUpdate fc o n = { fc with lines_modified := fc.lines_modified + 1 }) ∧
    (o = none → n = none → lineUpdate fc o n = fc) ∧
    diffStep (some fc) files (.line o n) = some (some (lineUpdate fc o n), files) := by
  refine ⟨?_, ?_, ?_, ?_, rfl⟩ <;>
    cases o <;> cases n <;> simp [lineUpdate]

/-- C4 witness: the theorem applied at a concrete added line (absent old
line number, new line number 7) on a fresh record. -/
theorem line_classification_witness :
    lineUpdate (newFileChange "g") none (some 7) =
      { newFileChange "g" with lines_added := 1 } :=
  (line_classification (newFileChange "g") none (some 7) []).1 rfl (by simp)

/-- C9: a hunk whose old-side and new-side line counts are both zero is
counted as added: the `(0, _)` arm of the match is tested first, so
`hunks_added` is the counter incremented. -/
theorem hunk_zero_zero_counted_added (fc : FileChange) :
    hunkUpdate fc 0 0 = { fc with hunks_added := fc.hunks_added + 1 } := rfl

/-- C1 (code bug): a diff enumerating exactly one file — scenario A of
the spec: one file, one hunk with old-count 0 and new-count 5, five added
lines — yields the empty list, not a one-element list: the source never
appends the last open record after `diff.foreach` completes. A diff
enumerating two files yields only the first. -/
theorem extract_from_diff_drops_last_record :
    extract_from_diff
      [DiffEvent.file (some "a.txt"), DiffEvent.hunk 0 5,
       DiffEvent.line none (some 1), DiffEvent.line none (some 2),
       DiffEvent.line none (some 3), DiffEvent.line none (some 4),
       DiffEvent.line none (some 5)] = some [] ∧
    extract_from_diff
      [DiffEvent.file (some "a.txt"), DiffEvent.hunk 0 1,
       DiffEvent.line none (some 1),
       DiffEvent.file (some "b.txt"), DiffEvent.hunk 1 1,
       DiffEvent.line (some 1) (some 1)] =
      some [{ path := "a.txt", lines_added := 1, lines_removed := 0,
              lines_modified := 0, hunks_added := 1, hunks_removed := 0,
              hunks_modified := 0 }] := by
  constructor <;> rfl

/-- Metadata of one resolved commit object: its tree oid, its ordered
parent oids, and the author fields that `extract_logs` reads
(`author().name()`, `author().email()`, `message()` may be absent). -/
structure CommitData where
  treeId : Nat
  parents : List Nat
  timeSeconds : Int
  authorName : Option String
  authorEmail : Option String
  message : Option String

/-- The git2 collaborator surface used inside the revwalk loop of
`extract_logs`: `find_commit` (and `commit.parent(0)`, which resolves a
commit object the same way), `find_tree`, and `diff_tree_to_tree` whose
successful result is the event sequence its `foreach` would deliver.
`find_tree` returns `Option` because every call site unwraps it. -/
structure Repo where
  findCommit : Nat → Except String CommitData
  findTree : Nat → Option Nat
  diffTreeToTree : Option Nat → Nat → Except String (List DiffEvent)

/-- A run outcome: normal return, an `Err` propagated by `?` to the
caller of `extract_logs`, or a Rust panic from a failed `.unwrap()`. -/
inductive Outcome (α : Type) where
  | ok (a : α)
  | err (e : String)
  | panicked
deriving Repr, DecidableEq

/-- Resolution of `parent_commit` / `parent_tree` (src/main.rs lines
301-309): zero parents gives `None`; otherwise `commit.parent(0).unwrap()`
resolves the first parent (panic on failure), takes its `tree_id()`, and
`repo.find_tree(oid).unwrap()` resolves that tree (panic on failure). -/
def resolveParentTree (repo : Repo) (parents : List Nat) : Outcome (Option Nat) :=
  match parents with
  | [] => .ok none
  | p0 :: _ =>
    match repo.findCommit p0 with
    | .error _ => .panicked
    | .ok parent_commit =>
      match repo.findTree parent_commit.treeId with
      | none => .panicked
      | some parent_tree => .ok (some parent_tree)

/-- The body of the revwalk loop of `extract_logs` for one yielded oid
(src/main.rs lines 288-341), up to the fully populated `Commit`:
`find_commit(oid)?`, `find_tree(commit.tree_id()).unwrap()`, parent-tree
resolution, then the merge-vs-normal branch: more than one parent gives
`CommitType::Merge` with the default empty `changes` and no diff; zero or
one parent diffs the parent tree (or `None`) against the commit tree with
`diff_tree_to_tree(...)?` and classifies it with `extract_from_diff(...)?`. -/
def processOid (repo : Repo) (repo_url : String) (oid : Nat) : Outcome Commit :=
  match repo.findCommit oid with
  | .error e => .err e
  | .ok commit =>
    match repo.findTree commit.treeId with
    | none => .panicked
    | some commit_tree =>
      match resolveParentTree repo commit.parents with
      | .panicked => .panicked
      | .err e => .err e
      | .ok parent_tree =>
        let default_commit : Commit :=
          { id := toString oid
            type := .Normal
            repo_url := repo_url
            timestamp := commit.timeSeconds
            author_name := commit.authorName.getD "unknown"
            author_email := commit.authorEmail.getD "unknown"
            message := commit.message.getD "unknown"
            changes := [] }
        if commit.parents.length > 1 then
          .ok { default_commit with type := .Merge }
        else
          match repo.diffTreeToTree parent_tree commit_tree with
          | .error e => .err e
          | .ok diff =>
            match extract_from_diff diff with
            | none => .panicked
            | some file_changes =>
              .ok { default_commit with type := .Normal, changes := file_changes }

/-- The flattening step (src/main.rs lines 343-362): one `FlatCommit` per
entry of `changes`, copying every commit scalar and the entry's fields. -/
def flattenCommit (my_commit : Commit) : List FlatCommit :=
  my_commit.changes.map (fun change =>
    { id := my_commit.id
      type := my_commit.type
      repo_url := my_commit.repo_url
      timestamp := my_commit.timestamp
      author_name := my_commit.author_name
      author_email := my_commit.author_email
      message := my_commit.message
      path := change.path
      lines_added := change.lines_added
      lines_removed := change.lines_removed
      lines_modified := change.lines_modified
      hunks_added := change.hunks_added
      hunks_removed := change.hunks_removed
      hunks_modified := change.hunks_modified })

/-- Emission of one flat record (src/main.rs lines 364-371): the record
is serialized (the oracle `serialize` stands for `serde_json::to_string`);
`Ok` prints one line to standard output, `Err` prints nothing anywhere —
the mapped error value is discarded by the `if let Ok` with no else arm.
The result is (stdout lines, stderr lines) of this step. -/
def emitOne (serialize : FlatCommit → Except String String) (f : FlatCommit) :
    List String × List String :=
  match serialize f with
  | .ok s => ([s], [])
  | .error _ => ([], [])

/-- The `flat.iter().for_each(...)` emission loop over one commit's flat
records, accumulating (stdout lines, stderr lines). -/
def emitFlat (serialize : FlatCommit → Except String String)
    (flat : List FlatCommit) : List String × List String :=
  flat.foldl (fun acc f =>
    (acc.1 ++ (emitOne serialize f).1, acc.2 ++ (emitOne serialize f).2)) ([], [])

/-- The revwalk loop of `extract_logs` (src/main.rs lines 287-372):
`while let Some(Ok(oid)) = revwalk.next()`. The walked items are the
values the revwalk iterator yields, each `Ok(oid)` or `Err(e)`; an `Err`
item (or the end of the sequence) fails the pattern and ends the loop,
after which `extract_logs` returns `Ok(())`. Each `Ok(oid)` is processed
by the loop body; an `Err` propagated from the body aborts the loop with
that error, a panic aborts the process. The result is the stdout lines
printed before the loop ended, paired with the outcome of the run. -/
def walkLoop (repo : Repo) (repo_url : String)
    (serialize : FlatCommit → Except String String) :
    List (Except String Nat) → List String × Outcome Unit
  | [] => ([], .ok ())
  | .error _ :: _ => ([], .ok ())
  | .ok oid :: rest =>
    match processOid repo repo_url oid with
    | .err e => ([], .err e)
    | .panicked => ([], .panicked)
    | .ok my_commit =>
      let emitted := emitFlat serialize (flattenCommit my_commit)
      let more := walkLoop repo repo_url serialize rest
      (emitted.1 ++ more.1, more.2)

/-- The exit status of `main` (src/main.rs lines 389-401): `main` matches
the result of `extract_logs`, prints `Err {:?}` to stderr on an error,
and returns `()` in both arms, so the process exit status is 0 whether or
not the run failed; only a Rust panic terminates with a non-zero status
(101). -/
def mainExitCode (r : Outcome Unit) : Nat :=
  match r with
  | .ok _ => 0
  | .err _ => 0
  | .panicked => 101

/-- The stderr diagnostic of `main` for the run outcome: the `Err` arm
prints the error; a panic message is printed by the Rust runtime. -/
def mainStderr (r : Outcome Unit) : List String :=
  match r with
  | .ok _ => []
  | .err e => ["Err " ++ e]
  | .panicked => ["panicked"]

/-- C2: for a traversed commit whose own objects resolve, the loop body
classifies by parent count: more than one parent gives `type = Merge`
with an empty `changes` list and the diff oracle is never consulted
(the result is unchanged under any replacement of `diff_tree_to_tree`);
zero parents gives `type = Normal` with changes from the diff of an empty
tree (`none`) against the commit tree; exactly one parent gives
`type = Normal` with changes from the diff of the first parent's tree
against the commit tree. -/
theorem processOid_merge_vs_normal (repo : Repo) (url : String) (oid : Nat)
    (cd : CommitData) (t : Nat)
    (hc : repo.findCommit oid = .ok cd)
    (ht : repo.findTree cd.treeId = some t) :
    (∀ p0 p1 ps pcd pt, cd.parents = p0 :: p1 :: ps →
        repo.findCommit p0 = .ok pcd →
        repo.findTree pcd.treeId = some pt →
        processOid repo url oid = .ok
          { id := toString oid, repo_url := url, timestamp := cd.timeSeconds,
            author_name := cd.authorName.getD "unknown",
            author_email := cd.authorEmail.getD "unknown",
            message := cd.message.getD "unknown",
            type := .Merge, changes := [] } ∧
        (∀ d, processOid { repo with diffTreeToTree := d } url oid =
              processOid repo url oid)) ∧
    (∀ evs chs, cd.parents = [] →
        repo.diffTreeToTree none t = .ok evs →
        extract_from_diff evs = some chs →
        processOid repo url oid = .ok
          { id := toString oid, repo_url := url, timestamp := cd.timeSeconds,
            author_name := cd.authorName.getD "unknown",
            author_email := cd.authorEmail.getD "unknown",
            message := cd.message.getD "unknown",
            type := .Normal, changes := chs }) ∧
    (∀ p0 pcd pt evs chs, cd.parents = [p0] →
        repo.findCommit p0 = .ok pcd →
        repo.findTree pcd.treeId = some pt →
        repo.diffTreeToTree (some pt) t = .ok evs →
        extract_from_diff evs = some chs →
        processOid repo url oid = .ok
          { id := toString oid, repo_url := url, timestamp := cd.timeSeconds,
            author_name := cd.authorName.getD "unknown",
            author_email := cd.authorEmail.getD "unknown",
            message := cd.message.getD "unknown",
            type := .Normal, changes := chs }) := by
  refine ⟨?_, ?_, ?_⟩
  · rintro p0 p1 ps pcd pt hps hpc hpt
    have hlen : cd.parents.length > 1 := by
      rw [hps]; simp only [List.length_cons]; omega
    constructor
    · simp [processOid, resolveParentTree, hc, ht, hps, hpc, hpt, hlen]
    · intro d
      simp [processOid, resolveParentTree, hc, ht, hps, hpc, hpt, hlen]
  · rintro evs chs hps hd hx
    simp [processOid, resolveParentTree, hc, ht, hps, hd, hx]
  · rintro p0 pcd pt evs chs hps hpc hpt hd hx
    simp [processOid, resolveParentTree, hc, ht, hps, hpc, hpt, hd, hx]

/-- A concrete repository oracle: oid 1 is a two-parent (merge) commit,
oid 2 a root commit, oid 3 a one-parent commit; every tree oid resolves
to itself and every diff enumerates one file event. -/
def sampleRepo : Repo :=
  { findCommit := fun n =>
      if n = 1 then .ok ⟨10, [2, 3], 100, some "alice", some "a@x", some "add stuff"⟩
      else if n = 2 then .ok ⟨20, [], 50, none, none, none⟩
      else if n = 3 then .ok ⟨30, [2], 60, some "bob", none, some "m3"⟩
      else .error "object not found"
    findTree := fun n => some n
    diffTreeToTree := fun _ _ => .ok [DiffEvent.file (some "a.txt")] }

/-- C2 witness: the merge conjunct applied to the two-parent commit of
`sampleRepo`: it is classified `Merge` with no changes. -/
theorem processOid_merge_vs_normal_witness :
    processOid sampleRepo "u" 1 = Outcome.ok
      { id := "1", repo_url := "u", timestamp := 100,
        author_name := "alice", author_email := "a@x", message := "add stuff",
        type := CommitType.Merge, changes := [] } :=
  ((processOid_merge_vs_normal sampleRepo "u" 1
      ⟨10, [2, 3], 100, some "alice", some "a@x", some "add stuff"⟩ 10 rfl rfl).1
    2 3 [] ⟨20, [], 50, none, none, none⟩ 20 rfl rfl rfl).1

/-- The commit used by the C5 witness: one change entry. -/
def witnessCommit : Commit :=
  { id := "cid", repo_url := "u", timestamp := 5, author_name := "an",
    author_email := "ae", message := "m", type := .Normal,
    changes := [newFileChange "w.txt"] }

/-- C5: the flattener produces exactly one `FlatCommit` per entry of
`changes`, in the same order, each copying the commit scalars verbatim
and merging in that entry's path and six counters; an empty `changes`
list produces no records, and any commit the walker classifies `Merge`
produces no records. -/
theorem flattenCommit_spec (c : Commit) :
    (flattenCommit c).length = c.changes.length ∧
    (∀ i (hi : i < c.changes.length) (hj : i < (flattenCommit c).length),
      ((flattenCommit c).get ⟨i, hj⟩).id = c.id ∧
      ((flattenCommit c).get ⟨i, hj⟩).repo_url = c.repo_url ∧
      ((flattenCommit c).get ⟨i, hj⟩).timestamp = c.timestamp ∧
      ((flattenCommit c).get ⟨i, hj⟩).author_name = c.author_name ∧
      ((flattenCommit c).get ⟨i, hj⟩).author_email = c.author_email ∧
      ((flattenCommit c).get ⟨i, hj⟩).message = c.message ∧
      ((flattenCommit c).get ⟨i, hj⟩).type = c.type ∧
      ((flattenCommit c).get ⟨i, hj⟩).path = (c.changes.get ⟨i, hi⟩).path ∧
      ((flattenCommit c).get ⟨i, hj⟩).lines_added = (c.changes.get ⟨i, hi⟩).lines_added ∧
      ((flattenCommit c).get ⟨i, hj⟩).lines_removed = (c.changes.get ⟨i, hi⟩).lines_removed ∧
      ((flattenCommit c).get ⟨i, hj⟩).lines_modified = (c.changes.get ⟨i, hi⟩).lines_modified ∧
      ((flattenCommit c).get ⟨i, hj⟩).hunks_added = (c.changes.get ⟨i, hi⟩).hunks_added ∧
      ((flattenCommit c).get ⟨i, hj⟩).hunks_removed = (c.changes.get ⟨i, hi⟩).hunks_removed ∧
      ((flattenCommit c).get ⟨i, hj⟩).hunks_modified = (c.changes.get ⟨i, hi⟩).hunks_modified) ∧
    (c.changes = [] → flattenCommit c = []) ∧
    (∀ repo url oid, processOid repo url oid = .ok c → c.type = .Merge →
      flattenCommit c = []) := by
  refine ⟨by simp [flattenCommit], ?_, ?_, ?_⟩
  · intro i hi hj
    refine ⟨?_, ?_, ?_, ?_, ?_, ?_, ?_, ?_, ?_, ?_, ?_, ?_, ?_, ?_⟩ <;>
      simp [flattenCommit, List.get_eq_getElem, List.getElem_map]
  · intro h
    simp [flattenCommit, h]
  · intro repo url oid h hm
    have hch : c.changes = [] := by
      unfold processOid at h
      split at h
      · cases h
      · split at h
        · cases h
        · split at h
          · cases h
          · cases h
          · split at h
            · injection h with h2
              subst h2
              rfl
            · split at h
              · cases h
              · split at h
                · cases h
                · injection h with h2
                  subst h2
                  cases hm
    simp [flattenCommit, hch]

/-- C5 witness: the theorem applied to a concrete one-change commit —
its single flat record copies the scalars and the change's path. -/
theorem flattenCommit_spec_witness :
    ((flattenCommit witnessCommit).get ⟨0, by simp [flattenCommit, witnessCommit]⟩).id = "cid" ∧
    ((flattenCommit witnessCommit).get ⟨0, by simp [flattenCommit, witnessCommit]⟩).path = "w.txt" :=
  ⟨((flattenCommit_spec witnessCommit).2.1 0 (by simp [witnessCommit])
      (by simp [flattenCommit, witnessCommit])).1,
   ((flattenCommit_spec witnessCommit).2.1 0 (by simp [witnessCommit])
      (by simp [flattenCommit, witnessCommit])).2.2.2.2.2.2.2.1⟩

/-- A repository oracle on which every commit lookup fails. -/
def failRepo : Repo :=
  { findCommit := fun _ => .error "object not found"
    findTree := fun n => some n
    diffTreeToTree := fun _ _ => .ok [] }

/-- A serializer oracle that always succeeds, rendering the path. -/
def serializeOk : FlatCommit → Except String String := fun f => .ok f.path

/-- C6 counterexample: a run in which resolving the only yielded commit
fails is a fatal condition (the traversal aborts with that error), yet
the process exit status is 0 — `main` only prints the error and returns
`()` — refuting the claim that any fatal condition exits non-zero. -/
theorem fatal_error_exit_status_zero :
    (walkLoop failRepo "u" serializeOk [Except.ok 1]).2 =
      Outcome.err "object not found" ∧
    mainExitCode (walkLoop failRepo "u" serializeOk [Except.ok 1]).2 = 0 :=
  ⟨rfl, rfl⟩

/-- C6 (amended): a resolution failure for a yielded commit is fatal and
aborts the whole traversal — nothing after the failing commit is ever
processed and the loop stops with that error — and `main` logs the error;
but the exit status is 0 for any error returned by `extract_logs` (the
match in `main` only prints it), non-zero only for a panic (a failed tree
resolution unwrap); a run with no fatal condition also exits 0. -/
theorem fatal_aborts_whole_traversal (repo : Repo) (url : String)
    (serialize : FlatCommit → Except String String) (oid : Nat) (e : String)
    (h : processOid repo url oid = .err e) :
    (∀ pre post post',
      walkLoop repo url serialize (pre ++ Except.ok oid :: post) =
      walkLoop repo url serialize (pre ++ Except.ok oid :: post')) ∧
    (∀ post, walkLoop repo url serialize (Except.ok oid :: post) = ([], .err e)) ∧
    mainExitCode (Outcome.err e) = 0 ∧
    mainStderr (Outcome.err e) = ["Err " ++ e] ∧
    mainExitCode (Outcome.ok ()) = 0 ∧
    (∀ oid2 post2, processOid repo url oid2 = Outcome.panicked →
      walkLoop repo url serialize (Except.ok oid2 :: post2) = ([], Outcome.panicked) ∧
      mainExitCode Outcome.panicked ≠ 0) := by
  refine ⟨?_, ?_, rfl, rfl, rfl, ?_⟩
  · intro pre post post'
    induction pre with
    | nil => simp [walkLoop, h]
    | cons x xs ih =>
      cases x with
      | error e2 => simp [walkLoop]
      | ok o =>
        simp only [List.cons_append, walkLoop]
        cases hpo : processOid repo url o with
        | err e2 => rfl
        | panicked => rfl
        | ok c => simp [ih]
  · intro post
    simp [walkLoop, h]
  · intro oid2 post2 h2
    exact ⟨by simp [walkLoop, h2], by simp [mainExitCode]⟩

/-- C6 witness: the amended theorem applied to `failRepo`: with a second
commit queued after the failing one, the run still stops at the failure
and emits nothing. -/
theorem fatal_aborts_whole_traversal_witness :
    walkLoop failRepo "u" serializeOk [Except.ok 1, Except.ok 2] =
      ([], Outcome.err "object not found") :=
  (fatal_aborts_whole_traversal failRepo "u" serializeOk 1
    "object not found" rfl).2.1 [Except.ok 2]

/-- C10: an `Err` item yielded by the revwalk mid-sequence ends the loop
exactly as the end of the sequence would: the walk of any item list is
unchanged by truncating it at the first `Err` item, an `Err`-headed rest
yields no output and the `Ok(())` outcome, and `main` prints no
diagnostic and exits 0 for that outcome. -/
theorem revwalk_error_item_ends_loop (repo : Repo) (url : String)
    (serialize : FlatCommit → Except String String) :
    (∀ pre e post,
      walkLoop repo url serialize (pre ++ Except.error e :: post) =
      walkLoop repo url serialize pre) ∧
    (∀ e post,
      walkLoop repo url serialize (Except.error e :: post) = ([], Outcome.ok ())) ∧
    mainStderr (Outcome.ok ()) = [] ∧
    mainExitCode (Outcome.ok ()) = 0 := by
  refine ⟨?_, fun e post => rfl, rfl, rfl⟩
  intro pre e post
  induction pre with
  | nil => simp [walkLoop]
  | cons x xs ih =>
    cases x with
    | error e2 => simp [walkLoop]
    | ok o =>
      simp only [List.cons_append, walkLoop]
      cases hpo : processOid repo url o with
      | err e2 => rfl
      | panicked => rfl
      | ok c => simp [ih]

/-- A flat record with the given path and all counters zero, used by the
C7 counterexample. -/
def mkFlatW (p : String) : FlatCommit :=
  { id := "c", repo_url := "u", timestamp := 0, author_name := "a",
    author_email := "e", message := "m", type := .Normal, path := p,
    lines_added := 0, lines_removed := 0, lines_modified := 0,
    hunks_added := 0, hunks_removed := 0, hunks_modified := 0 }

/-- A serializer oracle failing exactly on the record with path "bad". -/
def serializeFlaky : FlatCommit → Except String String :=
  fun f => if f.path = "bad" then .error "Serde failed!" else .ok f.path

/-- C7 counterexample: when serialization fails for the middle record,
that record is skipped and the following record is still emitted — but
nothing at all is written to the diagnostic stream: the mapped error is
discarded by the `if let Ok` with no else arm, refuting the claim that
the failure is logged. -/
theorem serialization_failure_not_logged :
    emitFlat serializeFlaky [mkFlatW "a", mkFlatW "bad", mkFlatW "b"] =
      (["a", "b"], []) := rfl

/-- Accumulator form of the emission loop: the final stdout is the start
value followed by the successful serializations in order, and the stderr
accumulator is never extended. -/
theorem emitFlat_go (serialize : FlatCommit → Except String String)
    (flat : List FlatCommit) (out log : List String) :
    flat.foldl (fun acc f =>
        (acc.1 ++ (emitOne serialize f).1, acc.2 ++ (emitOne serialize f).2))
      (out, log) =
    (out ++ flat.filterMap (fun f => (serialize f).toOption), log) := by
  induction flat generalizing out log with
  | nil => simp
  | cons f fs ih =>
    cases hf : serialize f with
    | ok s =>
      have he : emitOne serialize f = ([s], []) := by simp [emitOne, hf]
      simp only [List.foldl_cons, he, List.append_nil]
      rw [ih]
      simp [hf, Except.toOption, List.filterMap_cons, List.append_assoc]
    | error e2 =>
      have he : emitOne serialize f = ([], []) := by simp [emitOne, hf]
      simp only [List.foldl_cons, he, List.append_nil]
      rw [ih]
      simp [hf, Except.toOption, List.filterMap_cons]

/-- C7 (amended): a serialization failure for one record silently skips
that record — the emitted stdout lines are exactly the successful
serializations, in order, and nothing is written to stderr — and a
serialization failure never aborts the run: the outcome of the whole
traversal is the same for any two serializer oracles. -/
theorem serialization_failure_skips_silently
    (serialize : FlatCommit → Except String String) (flat : List FlatCommit) :
    emitFlat serialize flat =
      (flat.filterMap (fun f => (serialize f).toOption), []) ∧
    (∀ (repo : Repo) (url : String)
       (serialize2 : FlatCommit → Except String String)
       (items : List (Except String Nat)),
      (walkLoop repo url serialize items).2 =
      (walkLoop repo url serialize2 items).2) := by
  constructor
  · simpa [emitFlat] using emitFlat_go serialize flat [] []
  · intro repo url serialize2 items
    induction items with
    | nil => rfl
    | cons x xs ih =>
      cases x with
      | error e2 => rfl
      | ok o =>
        simp only [walkLoop]
        cases hpo : processOid repo url o with
        | err e2 => rfl
        | panicked => rfl
        | ok c => simp [ih]

/-- Per-step monotonicity bound: every one of the six counters of `b` is
at least the corresponding counter of `a` and at most one more. -/
def monoStep (a b : FileChange) : Prop :=
  a.lines_added ≤ b.lines_added ∧ b.lines_added ≤ a.lines_added + 1 ∧
  a.lines_removed ≤ b.lines_removed ∧ b.lines_removed ≤ a.lines_removed + 1 ∧
  a.lines_modified ≤ b.lines_modified ∧ b.lines_modified ≤ a.lines_modified + 1 ∧
  a.hunks_added ≤ b.hunks_added ∧ b.hunks_added ≤ a.hunks_added + 1 ∧
  a.hunks_removed ≤ b.hunks_removed ∧ b.hunks_removed ≤ a.hunks_removed + 1 ∧
  a.hunks_modified ≤ b.hunks_modified ∧ b.hunks_modified ≤ a.hunks_modified + 1

/-- One classifier callback never shrinks the finalized output list: the
previous list is a prefix of the new one. -/
theorem diffStep_keeps_finalized (st : Option FileChange) (files : List FileChange)
    (e : DiffEvent) (st' : Option FileChange) (files' : List FileChange)
    (h : diffStep st files e = some (st', files')) :
    List.IsPrefix files files' := by
  cases e with
  | file p =>
    cases p with
    | none => simp [diffStep] at h
    | some fn =>
      cases st with
      | none =>
        simp only [diffStep, Option.some.injEq, Prod.mk.injEq] at h
        exact h.2 ▸ List.prefix_refl _
      | some fc =>
        simp only [diffStep, Option.some.injEq, Prod.mk.injEq] at h
        exact h.2 ▸ List.prefix_append _ _
  | hunk o n =>
    cases st with
    | none => simp [diffStep] at h
    | some fc =>
      simp only [diffStep, Option.some.injEq, Prod.mk.injEq] at h
      exact h.2 ▸ List.prefix_refl _
  | line o n =>
    cases st with
    | none => simp [diffStep] at h
    | some fc =>
      simp only [diffStep, Option.some.injEq, Prod.mk.injEq] at h
      exact h.2 ▸ List.prefix_refl _

/-- C8: counters are `Nat` and only accumulate: every hunk event and
every line event leaves each of the six counters of the open record
either unchanged or incremented by exactly one, never decremented; and
the classifier never rewrites a finalized record — across any run of the
callback sequence the already-finalized list is a prefix of the final
one. -/
theorem counters_monotone :
    (∀ fc o n, monoStep fc (hunkUpdate fc o n)) ∧
    (∀ fc o n, monoStep fc (lineUpdate fc o n)) ∧
    (∀ events st files st' files',
      runEvents events st files = some (st', files') →
      List.IsPrefix files files') := by
  refine ⟨?_, ?_, ?_⟩
  · intro fc o n
    cases o <;> cases n <;> simp [hunkUpdate, monoStep]
  · intro fc o n
    cases o <;> cases n <;> simp [lineUpdate, monoStep]
  · intro events
    induction events with
    | nil =>
      intro st files st' files' h
      simp only [runEvents, Option.some.injEq, Prod.mk.injEq] at h
      exact h.2 ▸ List.prefix_refl _
    | cons e es ih =>
      intro st files st' files' h
      simp only [runEvents] at h
      cases hd : diffStep st files e with
      | none => rw [hd] at h; cases h
      | some r =>
        rw [hd] at h
        exact (diffStep_keeps_finalized st files e r.1 r.2 (by rw [hd])).trans
          (ih r.1 r.2 st' files' h)

/-- C8 witness: the prefix conjunct applied to a concrete run: a file
event that finalizes the open record extends the output list while
keeping the previous list as prefix. -/
theorem counters_monotone_witness :
    List.IsPrefix [newFileChange "z"] [newFileChange "z", newFileChange "a"] :=
  counters_monotone.2.2 [DiffEvent.file (some "b")] (some (newFileChange "a"))
    [newFileChange "z"] (some (newFileChange "b"))
    [newFileChange "z", newFileChange "a"] rfl
